import Mathlib

/-!
Shallow embedding of `src/dfa.js` (eliucs/dfa-js): spec validation, DFA/NFA
transition-table construction, and the per-symbol simulation engines.

Modelling conventions:
- JS strings are `String`; JS `Set` values built by insertion are `List String`
  with insertion order preserved (validation guarantees no duplicates).
- The nested JS objects `result[from][sym]` are flattened to association lists
  keyed by the pair `(from, sym)`; construction keeps at most one entry per key,
  so the flat lookup agrees with the nested one.
- JS `throw` is `Except.error` carrying the message; mutation of `this` is
  explicit state passing (`transition` returns the updated machine).
- The dynamic-type checks of the JS code (`typeof x !== 'string'`, arity of the
  transition tuples) are subsumed by the Lean types `String` and
  `String × String × String` and are not reproduced.
- The DFA runtime `currentState` is either a state string or the
  `new ErrorState()` marker object; this is `Option String` with `none` for the
  marker.  A JS `Set` of strings never contains the marker object, which is why
  `isAcceptingState` returns `false` on `none`.
-/

set_option autoImplicit false

namespace DfaJS

/-- The raw specification object handed to the constructors
(`alphabet`, `states`, `initialState`, `finalStates`, `transitions`);
a transition tuple is `(from, to, symbol)`. -/
structure AutomatonSpec where
  alphabet : List String
  states : List String
  initialState : String
  finalStates : List String
  transitions : List (String × String × String)
deriving Repr, DecidableEq

/-- The JS emptiness-after-trim check `x.trim().length === 0`: it holds exactly
when every character of `x` is whitespace.  Stated directly on the character
list so that concrete instances evaluate (Lean's `String.trim` is defined by
well-founded recursion and does not reduce definitionally). -/
def isSolelyWhitespace (x : String) : Bool :=
  x.data.all Char.isWhitespace

/-- Models `validateDFAProperties` from `dfa.js`: presence/truthiness of the five
fields.  In this embedding the list-valued fields always exist (an empty JS
array is truthy), so the only observable check is that `initialState` is not
the falsy empty string. -/
def validateDFAProperties (spec : AutomatonSpec) : Except String Unit :=
  if spec.initialState = "" then
    Except.error ("dfa initialState property not defined.")
  else
    Except.ok ()

/-- Loop body of `validateAlphabet`: the accumulator is the JS `Set` in
insertion order. -/
def validateAlphabetAux : List String → List String → Except String (List String)
  | [], acc => Except.ok acc
  | x :: rest, acc =>
    if acc.contains x then
      Except.error ("duplicate symbol in alphabet " ++ x ++ ".")
    else if isSolelyWhitespace x then
      Except.error ("symbol in alphabet must not be solely whitespace.")
    else
      validateAlphabetAux rest (acc ++ [x])

/-- Models `validateAlphabet` from `dfa.js`: no duplicates, no whitespace-only
symbols. -/
def validateAlphabet (alphabet : List String) : Except String (List String) :=
  validateAlphabetAux alphabet []

/-- Loop body of `validateStates`. -/
def validateStatesAux : List String → List String → Except String (List String)
  | [], acc => Except.ok acc
  | x :: rest, acc =>
    if acc.contains x then
      Except.error ("duplicate symbol in states " ++ x ++ ".")
    else if isSolelyWhitespace x then
      Except.error ("symbol in states must not be solely whitespace.")
    else
      validateStatesAux rest (acc ++ [x])

/-- Models `validateStates` from `dfa.js`. -/
def validateStates (states : List String) : Except String (List String) :=
  validateStatesAux states []

/-- Models `validateInitialState` from `dfa.js`: membership in the validated state
set, and not whitespace-only. -/
def validateInitialState (initial : String) (states : List String) :
    Except String Unit :=
  if !states.contains initial then
    Except.error ("initialState is not a valid state.")
  else if isSolelyWhitespace initial then
    Except.error ("initialState must not be solely whitespace.")
  else
    Except.ok ()

/-- Loop body of `validateFinalStates`. -/
def validateFinalStatesAux (states : List String) :
    List String → List String → Except String (List String)
  | [], acc => Except.ok acc
  | x :: rest, acc =>
    if acc.contains x then
      Except.error ("duplicate symbol in finalStates " ++ x ++ ".")
    else if !states.contains x then
      Except.error ("symbol " ++ x ++ " for finalStates is not a defined state.")
    else
      validateFinalStatesAux states rest (acc ++ [x])

/-- Models `validateFinalStates` from `dfa.js`: no duplicates, all members of the
validated state set. -/
def validateFinalStates (finalStates states : List String) :
    Except String (List String) :=
  validateFinalStatesAux states finalStates []

/-- First-match lookup in an association list keyed by `(state, symbol)`;
models the nested JS object access `table[from][sym]` (at most one entry per
key is ever created, so first-match is exact). -/
def lookupPair {α : Type} : List ((String × String) × α) → String × String → Option α
  | [], _ => none
  | (k, v) :: rest, key => if k = key then some v else lookupPair rest key

/-- The non-determinism error message raised by `validateTransitionsDFA`. -/
def nonDetMsg (f t s : String) : String :=
  "this transition results in non-deterministic behavior " ++ f ++ " " ++ t ++ " " ++ s

/-- Loop body of `validateTransitionsDFA`: membership checks in source order
(`from` state, `to` state, symbol), then the duplicate-`(from, symbol)` check,
then insertion `result[from][sym] = to`. -/
def validateTransitionsDFAAux (states alphabet : List String) :
    List (String × String × String) → List ((String × String) × String) →
    Except String (List ((String × String) × String))
  | [], acc => Except.ok acc
  | (f, t, s) :: rest, acc =>
    if !states.contains f then
      Except.error ("first symbol of transition must be a valid state, but got " ++ f ++ ".")
    else if !states.contains t then
      Except.error ("second symbol of transition must be a valid state, but got " ++ t ++ ".")
    else if !alphabet.contains s then
      Except.error ("third symbol of transition must be a valid symbol in the alphabet, but got " ++ s ++ ".")
    else if (lookupPair acc (f, s)).isSome then
      Except.error (nonDetMsg f t s)
    else
      validateTransitionsDFAAux states alphabet rest (acc ++ [((f, s), t)])

/-- Models `validateTransitionsDFA` from `dfa.js`: builds the deterministic table,
rejecting the first tuple whose `(from, symbol)` pair is already mapped. -/
def validateTransitionsDFA (states alphabet : List String)
    (transitions : List (String × String × String)) :
    Except String (List ((String × String) × String)) :=
  validateTransitionsDFAAux states alphabet transitions []

/-- Models `result[from][sym].push(to)` with on-demand creation of the inner object
and array: append `to` to the entry for `(from, sym)`, creating the entry
(as the singleton array) when absent.  No deduplication is performed, exactly
as in the source. -/
def pushTarget : List ((String × String) × List String) → String × String → String →
    List ((String × String) × List String)
  | [], key, t => [(key, [t])]
  | (k, ts) :: rest, key, t =>
    if k = key then (k, ts ++ [t]) :: rest else (k, ts) :: pushTarget rest key t

/-- Loop body of `validateTransitionsNFA`: same membership checks as the DFA
variant, but a `(from, symbol)` collision appends to the target array instead
of failing. -/
def validateTransitionsNFAAux (states alphabet : List String) :
    List (String × String × String) → List ((String × String) × List String) →
    Except String (List ((String × String) × List String))
  | [], acc => Except.ok acc
  | (f, t, s) :: rest, acc =>
    if !states.contains f then
      Except.error ("first symbol of transition must be a valid state, but got " ++ f ++ ".")
    else if !states.contains t then
      Except.error ("second symbol of transition must be a valid state, but got " ++ t ++ ".")
    else if !alphabet.contains s then
      Except.error ("third symbol of transition must be a valid symbol in the alphabet, but got " ++ s ++ ".")
    else
      validateTransitionsNFAAux states alphabet rest (pushTarget acc (f, s) t)

/-- Models `validateTransitionsNFA` from `dfa.js`. -/
def validateTransitionsNFA (states alphabet : List String)
    (transitions : List (String × String × String)) :
    Except String (List ((String × String) × List String)) :=
  validateTransitionsNFAAux states alphabet transitions []

/-- The `DFA` class: validated sets, the deterministic table, and the mutable
runtime fields `currentState` (`none` = the `ErrorState` marker object) and
`isInErrorState`. -/
structure DFA where
  alphabet : List String
  states : List String
  initialState : String
  finalStates : List String
  transitions : List ((String × String) × String)
  currentState : Option String
  isInErrorState : Bool
deriving Repr, DecidableEq

/-- The `DFA` constructor: runs the validators in source order and initializes
the runtime state to the initial state with the error flag cleared. -/
def DFA.construct (spec : AutomatonSpec) : Except String DFA :=
  match validateDFAProperties spec with
  | Except.error e => Except.error e
  | Except.ok _ =>
  match validateAlphabet spec.alphabet with
  | Except.error e => Except.error e
  | Except.ok alphabet =>
  match validateStates spec.states with
  | Except.error e => Except.error e
  | Except.ok states =>
  match validateInitialState spec.initialState states with
  | Except.error e => Except.error e
  | Except.ok _ =>
  match validateFinalStates spec.finalStates states with
  | Except.error e => Except.error e
  | Except.ok finalStates =>
  match validateTransitionsDFA states alphabet spec.transitions with
  | Except.error e => Except.error e
  | Except.ok transitions =>
    Except.ok { alphabet := alphabet, states := states,
                initialState := spec.initialState, finalStates := finalStates,
                transitions := transitions,
                currentState := some spec.initialState, isInErrorState := false }

/-- Models `DFA.getCurrentState`. -/
def DFA.getCurrentState (m : DFA) : Option String :=
  m.currentState

/-- Models `DFA.isAcceptingState`: the JS `finalStates.has(currentState)`; the `ErrorState`
marker is never a member of a set of strings. -/
def DFA.isAcceptingState (m : DFA) : Bool :=
  match m.currentState with
  | some s => m.finalStates.contains s
  | none => false

/-- Models `DFA.isErrorState`. -/
def DFA.isErrorState (m : DFA) : Bool :=
  m.isInErrorState

/-- Models `DFA.transition`: alphabet check first (throws), early return while in
error, otherwise table lookup moving to the error state on a miss. -/
def DFA.transition (m : DFA) (input : String) : Except String DFA :=
  if !m.alphabet.contains input then
    Except.error ("symbol " ++ input ++ " is not a valid symbol of the alphabet")
  else if m.isInErrorState then
    Except.ok m
  else
    match m.currentState with
    | none => Except.ok { m with currentState := none, isInErrorState := true }
    | some c =>
      match lookupPair m.transitions (c, input) with
      | none => Except.ok { m with currentState := none, isInErrorState := true }
      | some t => Except.ok { m with currentState := some t }

/-- Feed a sequence of symbols to a DFA, stopping at the first thrown error. -/
def DFA.run (m : DFA) : List String → Except String DFA
  | [] => Except.ok m
  | s :: rest =>
    match m.transition s with
    | Except.error e => Except.error e
    | Except.ok m' => m'.run rest

/-- The `NFA` class: validated sets, the multi-target table, and the mutable
runtime array `currentStates`. -/
structure NFA where
  alphabet : List String
  states : List String
  initialState : String
  finalStates : List String
  transitions : List ((String × String) × List String)
  currentStates : List String
deriving Repr, DecidableEq

/-- The `NFA` constructor: same validators, NFA table builder, and
`currentStates = [initialState]`. -/
def NFA.construct (spec : AutomatonSpec) : Except String NFA :=
  match validateDFAProperties spec with
  | Except.error e => Except.error e
  | Except.ok _ =>
  match validateAlphabet spec.alphabet with
  | Except.error e => Except.error e
  | Except.ok alphabet =>
  match validateStates spec.states with
  | Except.error e => Except.error e
  | Except.ok states =>
  match validateInitialState spec.initialState states with
  | Except.error e => Except.error e
  | Except.ok _ =>
  match validateFinalStates spec.finalStates states with
  | Except.error e => Except.error e
  | Except.ok finalStates =>
  match validateTransitionsNFA states alphabet spec.transitions with
  | Except.error e => Except.error e
  | Except.ok transitions =>
    Except.ok { alphabet := alphabet, states := states,
                initialState := spec.initialState, finalStates := finalStates,
                transitions := transitions,
                currentStates := [spec.initialState] }

/-- Models `NFA.getCurrentStates`. -/
def NFA.getCurrentStates (m : NFA) : List String :=
  m.currentStates

/-- Models `NFA.isAcceptingState`: the JS
`reduce((prev, curr) => prev && finalStates.has(curr), true)`. -/
def NFA.isAcceptingState (m : NFA) : Bool :=
  m.currentStates.foldl (fun prev curr => prev && m.finalStates.contains curr) true

/-- Models `NFA.isErrorState`: the active array is empty. -/
def NFA.isErrorState (m : NFA) : Bool :=
  m.currentStates.length == 0

/-- The loop of `NFA.transition`: each active state pushes its targets onto
`result`; a state with no entry pushes the `ErrorState` marker, which the
final `filter` removes — so it contributes the empty list. -/
def nfaStep (table : List ((String × String) × List String)) (input : String) :
    List String → List String
  | [] => []
  | x :: rest =>
    (match lookupPair table (x, input) with
     | none => []
     | some ys => ys) ++ nfaStep table input rest

/-- Models `NFA.transition`: alphabet check first (throws), early return when the
active array is empty, otherwise replace it with the concatenated target
arrays of all active states. -/
def NFA.transition (m : NFA) (input : String) : Except String NFA :=
  if !m.alphabet.contains input then
    Except.error ("symbol " ++ input ++ " is not a valid symbol of the alphabet")
  else if m.currentStates.length == 0 then
    Except.ok m
  else
    Except.ok { m with currentStates := nfaStep m.transitions input m.currentStates }

/-- Feed a sequence of symbols to an NFA, stopping at the first thrown
error. -/
def NFA.run (m : NFA) : List String → Except String NFA
  | [] => Except.ok m
  | s :: rest =>
    match m.transition s with
    | Except.error e => Except.error e
    | Except.ok m' => m'.run rest

/-- The targets contributed by active state `x` on `input`: the table entry,
or nothing when the entry is undefined. -/
def lookupTargets (table : List ((String × String) × List String))
    (x input : String) : List String :=
  match lookupPair table (x, input) with
  | none => []
  | some ys => ys


/-!
Concrete automatons used as witnesses: the scenario from the design notes
(alphabet `{a, b}`, states `{s1, s2, s3}`, initial `s1`, final `{s3}`).
-/

/-- The concrete DFA scenario spec with transitions
`[(s1, s2, a), (s2, s3, b)]`. -/
def exSpec : AutomatonSpec where
  alphabet := ["a", "b"]
  states := ["s1", "s2", "s3"]
  initialState := "s1"
  finalStates := ["s3"]
  transitions := [("s1", "s2", "a"), ("s2", "s3", "b")]

/-- The DFA object produced by constructing `exSpec`. -/
def exDFA : DFA where
  alphabet := ["a", "b"]
  states := ["s1", "s2", "s3"]
  initialState := "s1"
  finalStates := ["s3"]
  transitions := [(("s1", "a"), "s2"), (("s2", "b"), "s3")]
  currentState := some ("s1")
  isInErrorState := false

/-- Sanity anchor: constructing `exSpec` yields exactly `exDFA`. -/
theorem exDFA_construct : DFA.construct exSpec = Except.ok exDFA := by rfl

/-- The NFA object produced by constructing `exSpec`. -/
def exNFA : NFA where
  alphabet := ["a", "b"]
  states := ["s1", "s2", "s3"]
  initialState := "s1"
  finalStates := ["s3"]
  transitions := [(("s1", "a"), ["s2"]), (("s2", "b"), ["s3"])]
  currentStates := ["s1"]

/-- Sanity anchor: constructing `exSpec` as an NFA yields exactly `exNFA`. -/
theorem exNFA_construct : NFA.construct exSpec = Except.ok exNFA := by rfl

/-- The concrete NFA scenario spec with transitions
`[(s1, s2, a), (s1, s3, a)]`. -/
def exSpec2 : AutomatonSpec where
  alphabet := ["a", "b"]
  states := ["s1", "s2", "s3"]
  initialState := "s1"
  finalStates := ["s3"]
  transitions := [("s1", "s2", "a"), ("s1", "s3", "a")]

/-- The NFA object produced by constructing `exSpec2`. -/
def exNFA2 : NFA where
  alphabet := ["a", "b"]
  states := ["s1", "s2", "s3"]
  initialState := "s1"
  finalStates := ["s3"]
  transitions := [(("s1", "a"), ["s2", "s3"])]
  currentStates := ["s1"]

/-- Sanity anchor: constructing `exSpec2` as an NFA yields exactly `exNFA2`. -/
theorem exNFA2_construct : NFA.construct exSpec2 = Except.ok exNFA2 := by rfl

/-- The DFA of `exSpec` after reaching the error state. -/
def exDFAerr : DFA :=
  { exDFA with currentState := none, isInErrorState := true }

/-- The NFA of `exSpec` after its active array has emptied. -/
def exNFAdead : NFA :=
  { exNFA with currentStates := [] }

/-- The spec exhibiting duplicate targets for one `(from, symbol)` pair:
two identical transition tuples `(s1, s2, a)`. -/
def c1Spec : AutomatonSpec where
  alphabet := ["a"]
  states := ["s1", "s2"]
  initialState := "s1"
  finalStates := ["s2"]
  transitions := [("s1", "s2", "a"), ("s1", "s2", "a")]

/-- The NFA built from `c1Spec`: the target array for `(s1, a)` already holds
`s2` twice. -/
def c1NFA : NFA where
  alphabet := ["a"]
  states := ["s1", "s2"]
  initialState := "s1"
  finalStates := ["s2"]
  transitions := [(("s1", "a"), ["s2", "s2"])]
  currentStates := ["s1"]

/-- The NFA `c1NFA` after consuming `a`: the active array holds `s2` twice. -/
def c1NFA2 : NFA :=
  { c1NFA with currentStates := ["s2", "s2"] }

/-!
Helper lemmas shared by the claim theorems.
-/

/-- Processing a concatenated tuple list is processing the first part and, on
success, continuing with the second from the resulting table. -/
theorem validateTransitionsDFAAux_append (states alphabet : List String)
    (l1 l2 : List (String × String × String))
    (acc : List ((String × String) × String)) :
    validateTransitionsDFAAux states alphabet (l1 ++ l2) acc =
      match validateTransitionsDFAAux states alphabet l1 acc with
      | Except.error e => Except.error e
      | Except.ok tab => validateTransitionsDFAAux states alphabet l2 tab := by
  induction l1 generalizing acc with
  | nil => simp [validateTransitionsDFAAux]
  | cons hd tl ih =>
    obtain ⟨f, t, s⟩ := hd
    simp only [List.cons_append, validateTransitionsDFAAux]
    split
    · rfl
    · split
      · rfl
      · split
        · rfl
        · split
          · rfl
          · exact ih (acc ++ [((f, s), t)])

/-- Membership in the concatenated contribution arrays is membership in the
contribution of some active state. -/
theorem nfaStep_mem (table : List ((String × String) × List String))
    (input : String) (l : List String) (y : String) :
    y ∈ nfaStep table input l ↔ ∃ x, x ∈ l ∧ y ∈ lookupTargets table x input := by
  induction l with
  | nil => simp [nfaStep]
  | cons hd tl ih =>
    simp only [nfaStep, List.mem_append, ih, List.mem_cons, lookupTargets]
    constructor
    · rintro (hy | ⟨x, hx, hy⟩)
      · exact ⟨hd, Or.inl rfl, hy⟩
      · exact ⟨x, Or.inr hx, hy⟩
    · rintro ⟨x, hx | hx, hy⟩
      · subst hx; exact Or.inl hy
      · exact Or.inr ⟨x, hx, hy⟩

/-- The concatenated contribution arrays are empty exactly when every active
state contributes nothing. -/
theorem nfaStep_eq_nil (table : List ((String × String) × List String))
    (input : String) (l : List String) :
    nfaStep table input l = [] ↔ ∀ x, x ∈ l → lookupTargets table x input = [] := by
  induction l with
  | nil => simp [nfaStep]
  | cons hd tl ih =>
    simp only [nfaStep, List.append_eq_nil, ih, List.mem_cons, lookupTargets]
    constructor
    · rintro ⟨h1, h2⟩ x (hx | hx)
      · subst hx; exact h1
      · exact h2 x hx
    · intro h
      exact ⟨h hd (Or.inl rfl), fun x hx => h x (Or.inr hx)⟩

/-- The JS `reduce` with `&&` over a list is the `all` of the list conjoined
with the initial accumulator. -/
theorem foldl_and_eq_all (p : String → Bool) (l : List String) (b : Bool) :
    l.foldl (fun prev curr => prev && p curr) b = (b && l.all p) := by
  induction l generalizing b with
  | nil => simp
  | cons x xs ih => simp [List.foldl_cons, ih, Bool.and_assoc]

/-- A successful DFA construction initializes `currentState` to the spec's
initial state with the error flag cleared. -/
theorem DFA.construct_ok_fields (spec : AutomatonSpec) (d : DFA)
    (h : DFA.construct spec = Except.ok d) :
    d.currentState = some spec.initialState ∧ d.isInErrorState = false := by
  unfold DFA.construct at h
  repeat' split at h
  all_goals cases h
  exact ⟨rfl, rfl⟩

/-- A successful NFA construction initializes the active array to the
singleton of the spec's initial state. -/
theorem NFA.construct_ok_singleton (spec : AutomatonSpec) (n : NFA)
    (h : NFA.construct spec = Except.ok n) :
    n.currentStates = [spec.initialState] := by
  unfold NFA.construct at h
  repeat' split at h
  all_goals cases h
  rfl

/-!
Claim theorems.
-/

/-- C1: the spec requires the targets accumulated for a `(from, symbol)` pair
and the runtime active-state collection to be deduplicated, but the code keeps
plain arrays: building the NFA of `c1Spec` (the tuple `(s1, s2, a)` declared
twice) stores `s2` twice in the target array, and after consuming `a` the
active collection is `[s2, s2]`, which has duplicate entries. -/
theorem C1_nfa_duplicates_retained :
    NFA.construct c1Spec = Except.ok c1NFA ∧
    c1NFA.transition ("a") = Except.ok c1NFA2 ∧
    c1NFA2.getCurrentStates = ["s2", "s2"] ∧
    ¬ c1NFA2.getCurrentStates.Nodup :=
  ⟨by rfl, by rfl, by rfl, by decide⟩

/-- C2: for every constructed automaton (DFA or NFA), in every runtime state
including the error/dead state, `transition` with a symbol outside the
alphabet throws the unknown-symbol error; the check precedes every other
effect of the call. -/
theorem C2_unknown_symbol_fails :
    (∀ (d : DFA) (s : String), d.alphabet.contains s = false →
      d.transition s =
        Except.error ("symbol " ++ s ++ " is not a valid symbol of the alphabet")) ∧
    (∀ (n : NFA) (s : String), n.alphabet.contains s = false →
      n.transition s =
        Except.error ("symbol " ++ s ++ " is not a valid symbol of the alphabet")) := by
  constructor
  · intro d s h
    have h' : s ∉ d.alphabet := by simpa using h
    simp [DFA.transition, h']
  · intro n s h
    have h' : s ∉ n.alphabet := by simpa using h
    simp [NFA.transition, h']

/-- Witness for C2: the constructed automatons of `exSpec` throw on the
out-of-alphabet symbol `z`, the DFA also while already in the error state. -/
theorem C2_witness :
    exDFAerr.transition ("z") =
      Except.error ("symbol " ++ "z" ++ " is not a valid symbol of the alphabet") ∧
    exNFA.transition ("z") =
      Except.error ("symbol " ++ "z" ++ " is not a valid symbol of the alphabet") :=
  ⟨C2_unknown_symbol_fails.1 exDFAerr ("z") (by rfl),
   C2_unknown_symbol_fails.2 exNFA ("z") (by rfl)⟩

/-- C3: a DFA that is not in the error state, on a valid alphabet symbol,
moves to the error state (with `isErrorState` true) when the table has no
entry for `(currentState, symbol)`, and otherwise moves to the mapped target
state. -/
theorem C3_dfa_step_semantics (d : DFA) (c s : String)
    (hs : d.alphabet.contains s = true) (he : d.isErrorState = false)
    (hc : d.currentState = some c) :
    (lookupPair d.transitions (c, s) = none →
      d.transition s = Except.ok { d with currentState := none, isInErrorState := true } ∧
      DFA.isErrorState { d with currentState := none, isInErrorState := true } = true) ∧
    (∀ t, lookupPair d.transitions (c, s) = some t →
      d.transition s = Except.ok { d with currentState := some t }) := by
  have he' : d.isInErrorState = false := he
  have hs' : s ∈ d.alphabet := by simpa using hs
  constructor
  · intro hnone
    constructor
    · simp [DFA.transition, hs', he', hc, hnone]
    · rfl
  · intro t ht
    simp [DFA.transition, hs', he', hc, ht]

/-- Witness for C3: from `s1` the DFA of `exSpec` moves to `s2` on `a` (the
mapped target), and `{ exDFA with no entry }`: from `s1` on `b` it moves to
the error state. -/
theorem C3_witness :
    exDFA.transition ("a") = Except.ok { exDFA with currentState := some ("s2") } ∧
    (exDFA.transition ("b") =
      Except.ok { exDFA with currentState := none, isInErrorState := true } ∧
      DFA.isErrorState { exDFA with currentState := none, isInErrorState := true } = true) :=
  ⟨(C3_dfa_step_semantics exDFA ("s1") ("a") (by rfl) (by rfl) (by rfl)).2 ("s2") (by rfl),
   (C3_dfa_step_semantics exDFA ("s1") ("b") (by rfl) (by rfl) (by rfl)).1 (by rfl)⟩

/-- C5: DFA table construction processes the tuples in declaration order and
fails with the non-deterministic-transition error at the first tuple whose
`(from, symbol)` pair is already mapped, regardless of what follows; the
existing entry is never silently overwritten. -/
theorem C5_dfa_first_conflict (states alphabet : List String)
    (pre rest : List (String × String × String)) (f t s : String)
    (table : List ((String × String) × String))
    (hpre : validateTransitionsDFA states alphabet pre = Except.ok table)
    (hf : states.contains f = true) (ht : states.contains t = true)
    (hs : alphabet.contains s = true)
    (hdup : (lookupPair table (f, s)).isSome = true) :
    validateTransitionsDFA states alphabet (pre ++ (f, t, s) :: rest) =
      Except.error (nonDetMsg f t s) := by
  have hf' : f ∈ states := by simpa using hf
  have ht' : t ∈ states := by simpa using ht
  have hs' : s ∈ alphabet := by simpa using hs
  unfold validateTransitionsDFA at hpre ⊢
  rw [validateTransitionsDFAAux_append, hpre]
  simp [validateTransitionsDFAAux, hf', ht', hs', hdup]

/-- Witness for C5: with `(s1, s2, a)` already processed, the conflicting
tuple `(s1, s3, a)` triggers the non-determinism error naming that tuple. -/
theorem C5_witness :
    validateTransitionsDFA ["s1", "s2", "s3"] ["a", "b"]
      ([("s1", "s2", "a")] ++ ("s1", "s3", "a") :: []) =
      Except.error (nonDetMsg ("s1") ("s3") ("a")) :=
  C5_dfa_first_conflict ["s1", "s2", "s3"] ["a", "b"] [("s1", "s2", "a")] []
    ("s1") ("s3") ("a") [(("s1", "a"), "s2")] (by rfl) (by rfl) (by rfl) (by rfl) (by rfl)

/-- C7: once a DFA is in the error state, the error state is absorbing: any
sequence of valid alphabet symbols leaves the machine unchanged (so
`isErrorState` stays true). -/
theorem C7_dfa_error_absorbing (d : DFA) (syms : List String)
    (he : d.isErrorState = true)
    (hs : ∀ s, s ∈ syms → d.alphabet.contains s = true) :
    d.run syms = Except.ok d := by
  induction syms with
  | nil => rfl
  | cons s rest ih =>
    have h2 := hs s (List.mem_cons_self s rest)
    have he' : d.isInErrorState = true := he
    have h2' : s ∈ d.alphabet := by simpa using h2
    have h1 : d.transition s = Except.ok d := by
      simp [DFA.transition, h2', he']
    unfold DFA.run
    rw [h1]
    exact ih (fun x hx => hs x (List.mem_cons_of_mem s hx))

/-- Witness for C7: the error-state DFA of `exSpec` is unchanged by the valid
symbols `a` then `b`. -/
theorem C7_witness : exDFAerr.run ["a", "b"] = Except.ok exDFAerr :=
  C7_dfa_error_absorbing exDFAerr ["a", "b"] (by rfl) (by decide)

/-- C8: once an NFA's active set is empty (`isErrorState` true), it stays
empty for any sequence of valid alphabet symbols: the dead configuration is
absorbing. -/
theorem C8_nfa_dead_absorbing (n : NFA) (syms : List String)
    (he : n.isErrorState = true)
    (hs : ∀ s, s ∈ syms → n.alphabet.contains s = true) :
    n.run syms = Except.ok n := by
  induction syms with
  | nil => rfl
  | cons s rest ih =>
    have h2 := hs s (List.mem_cons_self s rest)
    have he' : (n.currentStates.length == 0) = true := he
    have h2' : s ∈ n.alphabet := by simpa using h2
    have h1 : n.transition s = Except.ok n := by
      simp [NFA.transition, h2', he']
    unfold NFA.run
    rw [h1]
    exact ih (fun x hx => hs x (List.mem_cons_of_mem s hx))

/-- Witness for C8: the dead NFA of `exSpec` is unchanged by the valid
symbols `a` then `b`. -/
theorem C8_witness : exNFAdead.run ["a", "b"] = Except.ok exNFAdead :=
  C8_nfa_dead_absorbing exNFAdead ["a", "b"] (by rfl) (by decide)

/-- C4: for an NFA with a non-empty active set and a valid symbol, the new
active set is the union over the active states of the table lookups: a state
with no entry contributes nothing (and is not an error by itself), and the
machine is dead exactly when every contribution is empty. -/
theorem C4_nfa_step_union (n : NFA) (s : String)
    (hs : n.alphabet.contains s = true) (hne : n.currentStates ≠ []) :
    ∃ n', n.transition s = Except.ok n' ∧
      (∀ y, y ∈ n'.currentStates ↔
        ∃ x, x ∈ n.currentStates ∧ y ∈ lookupTargets n.transitions x s) ∧
      (n'.isErrorState = true ↔
        ∀ x, x ∈ n.currentStates → lookupTargets n.transitions x s = []) := by
  have hs' : s ∈ n.alphabet := by simpa using hs
  refine ⟨{ n with currentStates := nfaStep n.transitions s n.currentStates }, ?_, ?_, ?_⟩
  · simp [NFA.transition, hs', hne]
  · intro y
    exact nfaStep_mem n.transitions s n.currentStates y
  · simp only [NFA.isErrorState, beq_iff_eq, List.length_eq_zero]
    exact nfaStep_eq_nil n.transitions s n.currentStates

/-- Witness for C4: the NFA of `exSpec2` (both `(s1, s2, a)` and
`(s1, s3, a)`) from active `[s1]` on `a`. -/
theorem C4_witness :
    ∃ n', exNFA2.transition ("a") = Except.ok n' ∧
      (∀ y, y ∈ n'.currentStates ↔
        ∃ x, x ∈ exNFA2.currentStates ∧ y ∈ lookupTargets exNFA2.transitions x ("a")) ∧
      (n'.isErrorState = true ↔
        ∀ x, x ∈ exNFA2.currentStates → lookupTargets exNFA2.transitions x ("a") = []) :=
  C4_nfa_step_union exNFA2 ("a") (by rfl) (by decide)

/-- C6: immediately after a successful construction, the DFA's current state
is the spec's initial state with the error flag cleared, and the NFA's active
collection is exactly the singleton of the spec's initial state. -/
theorem C6_initial_runtime_state (spec : AutomatonSpec) :
    (∀ d, DFA.construct spec = Except.ok d →
      d.getCurrentState = some spec.initialState ∧ d.isErrorState = false) ∧
    (∀ n, NFA.construct spec = Except.ok n →
      n.getCurrentStates = [spec.initialState]) := by
  constructor
  · intro d h
    exact DFA.construct_ok_fields spec d h
  · intro n h
    exact NFA.construct_ok_singleton spec n h

/-- Witness for C6: the automatons constructed from `exSpec` start at `s1`. -/
theorem C6_witness :
    (exDFA.getCurrentState = some exSpec.initialState ∧ exDFA.isErrorState = false) ∧
    exNFA.getCurrentStates = [exSpec.initialState] :=
  ⟨(C6_initial_runtime_state exSpec).1 exDFA exDFA_construct,
   (C6_initial_runtime_state exSpec).2 exNFA exNFA_construct⟩

/-- A DFA value is reachable when it is produced by the constructor or by a
`transition` call on a reachable DFA; claims about "every DFA" quantify over
these. -/
inductive DFAReachable : DFA → Prop where
  | constructed (spec : AutomatonSpec) (d : DFA) :
      DFA.construct spec = Except.ok d → DFAReachable d
  | step (d : DFA) (s : String) (d' : DFA) :
      DFAReachable d → d.transition s = Except.ok d' → DFAReachable d'

/-- A `transition` call preserves the coupling of the error flag with the
`ErrorState` marker in `currentState`. -/
theorem DFA.transition_coherent (d d' : DFA) (s : String)
    (hco : d.isInErrorState = true ↔ d.currentState = none)
    (h : d.transition s = Except.ok d') :
    d'.isInErrorState = true ↔ d'.currentState = none := by
  unfold DFA.transition at h
  split at h
  · cases h
  · split at h
    next herr =>
      cases h
      exact hco
    next herr =>
      split at h
      next hcur =>
        cases h
        simp
      next c hcur =>
        split at h
        next hlook =>
          cases h
          simp
        next t hlook =>
          cases h
          simp [herr]

/-- Every reachable DFA couples the error flag with the `ErrorState` marker:
the flag is set exactly when `currentState` holds the marker. -/
theorem DFA.reachable_coherent (d : DFA) (h : DFAReachable d) :
    d.isInErrorState = true ↔ d.currentState = none := by
  induction h with
  | constructed spec d hc =>
    obtain ⟨h1, h2⟩ := DFA.construct_ok_fields spec d hc
    rw [h1, h2]
    simp
  | step d s d' hr htr ih =>
    exact DFA.transition_coherent d d' s ih htr

/-- C9: for every DFA (reachable by construction and transitions),
`isAcceptingState` is true exactly when the machine is in a non-error state
that is a member of `finalStates`; in particular it is false in the error
state. -/
theorem C9_dfa_accepting_iff (d : DFA) (hr : DFAReachable d) :
    d.isAcceptingState = true ↔
      (d.isErrorState = false ∧
        ∃ s, d.currentState = some s ∧ d.finalStates.contains s = true) := by
  have hco := DFA.reachable_coherent d hr
  cases hc : d.currentState with
  | none =>
    have hflag : d.isInErrorState = true := hco.mpr hc
    simp [DFA.isAcceptingState, DFA.isErrorState, hc, hflag]
  | some c =>
    have hflag : d.isInErrorState = false := by
      cases hb : d.isInErrorState
      · rfl
      · exact absurd (hco.mp hb) (by simp [hc])
    simp [DFA.isAcceptingState, DFA.isErrorState, hc, hflag]

/-- Witness for C9: the freshly constructed DFA of `exSpec`. -/
theorem C9_witness :
    exDFA.isAcceptingState = true ↔
      (exDFA.isErrorState = false ∧
        ∃ s, exDFA.currentState = some s ∧ exDFA.finalStates.contains s = true) :=
  C9_dfa_accepting_iff exDFA (DFAReachable.constructed exSpec exDFA exDFA_construct)

/-- C10: the NFA's `isAcceptingState` is the conjunction, over the active
collection, of membership in `finalStates`; on the empty active collection it
is vacuously true at the same time as `isErrorState`. -/
theorem C10_nfa_accepting_all_final (n : NFA) :
    (n.isAcceptingState = true ↔
      ∀ s, s ∈ n.currentStates → n.finalStates.contains s = true) ∧
    (n.currentStates = [] → n.isAcceptingState = true ∧ n.isErrorState = true) := by
  constructor
  · unfold NFA.isAcceptingState
    rw [foldl_and_eq_all]
    simp
  · intro h
    constructor
    · simp [NFA.isAcceptingState, h]
    · simp [NFA.isErrorState, h]

/-- Witness for C10: the NFA of `exSpec` (active `[s1]`, final `{s3}`) and
the dead NFA (empty active collection). -/
theorem C10_witness :
    (exNFA.isAcceptingState = true ↔
      ∀ s, s ∈ exNFA.currentStates → exNFA.finalStates.contains s = true) ∧
    (exNFAdead.isAcceptingState = true ∧ exNFAdead.isErrorState = true) :=
  ⟨(C10_nfa_accepting_all_final exNFA).1,
   (C10_nfa_accepting_all_final exNFAdead).2 (by rfl)⟩

end DfaJS
